import Mathlib

/-!
Verification of the anonymous pairing server (`server.js` and its two variant
iterations, `part_000` and `part_001`).

The global JS `Map`s are modelled as insertion-ordered association lists with
unique keys (`alGet` / `alSet` / `alDel` mirror `Map.get` / `Map.set` /
`Map.delete`).  `Math.random() * 0.5` in the matchmaker is modelled by a
jitter function `jit : Nat → ℚ` giving the draw for the i-th candidate.
`Array.prototype.sort` with the numeric comparator `(a, b) => a.score - b.score`
is stable in JS, and the code only ever reads element `[0]` of the sorted
array, i.e. the first element attaining the minimal score; `selectMinBy`
computes exactly that element.  Socket.io delivery (`socket.emit`,
`socket.to(room)`, `io.to(room)`, `io.emit`) is modelled by resolving room
targeting against the room-membership table at emission time.
-/

namespace Ran

/-- `Map.get`: first (and, with unique keys, only) binding of a key. -/
def alGet {α : Type} : List (String × α) → String → Option α
  | [], _ => none
  | (k, v) :: rest, key => if k = key then some v else alGet rest key

/-- `Map.set`: replace in place if the key exists, else append (JS maps keep
insertion order, and `set` on a present key keeps its position). -/
def alSet {α : Type} : List (String × α) → String → α → List (String × α)
  | [], key, v => [(key, v)]
  | (k, w) :: rest, key, v =>
    if k = key then (key, v) :: rest else (k, w) :: alSet rest key v

/-- `Map.delete`. -/
def alDel {α : Type} : List (String × α) → String → List (String × α)
  | [], _ => []
  | (k, w) :: rest, key =>
    if k = key then alDel rest key else (k, w) :: alDel rest key

/-- Remove every occurrence of a string from a list (used for leaving a
socket.io room and for `socket.to`'s sender exclusion). -/
def removeAll : List String → String → List String
  | [], _ => []
  | y :: ys, x => if y = x then removeAll ys x else y :: removeAll ys x

/-- `Set.add`: append if absent (JS sets keep insertion order). -/
def setAdd (l : List String) (x : String) : List String :=
  if x ∈ l then l else l ++ [x]

/-- An entry of `waitingUsers` / `activeUsers` (server.js lines 146-160):
user id, socket id and requested mode.  The opaque `preferences` bag and the
`connectedAt` timestamp play no role in any behaviour and are omitted. -/
structure WUser where
  id : String
  socketId : String
  type : String
deriving DecidableEq

/-- A chat message as stored in `room.messages` (server.js lines 205-211).
The random uuid `id`, the wall-clock `timestamp` and the constant
`type: 'message'` field are generation metadata and are omitted. -/
structure Msg where
  text : String
  sender : String
deriving DecidableEq

/-- A room as built by `createRoom` (server.js lines 118-135). -/
structure Room where
  id : String
  type : String
  users : List String
  messages : List Msg
deriving DecidableEq

/-- The global mutable state of server.js (lines 31-39), plus the socket.io
room-membership table and a ghost log of every room ever created. -/
structure ServerState where
  activeUsers : List (String × WUser)              -- keyed by socketId
  waitingUsers : List (String × WUser)             -- keyed by userId
  chatRooms : List (String × Room)
  videoRooms : List (String × Room)
  previousConnections : List (String × List String)
  userConnectionCount : List (String × Nat)
  userLastConnectionTime : List (String × Nat)
  roomSockets : List (String × List String)        -- socket.io: roomId → member sockets
  roomCounter : Nat                                -- freshness source for generateRoomId
  createdRooms : List Room                         -- ghost: every room ever created
deriving DecidableEq

/-- Outbound events of the core (spec section 6). -/
inductive Event where
  | waitingForPartner
  | partnerFound (roomId : String) (partnerId : Option String) (isRepeatConnection : Bool)
  | partnerFoundVQ (roomId : String) (partnerUserId partnerPlatform : String)
  | newMessage (m : Msg)
  | partnerDisconnected
  | userCountUpdate (count : Nat)
deriving DecidableEq

/-- Where a delivery goes: a single socket, or an `io.emit` broadcast. -/
inductive Target where
  | sock (socketId : String)
  | all
deriving DecidableEq

abbrev Delivery := Target × Event

/-- The previous-partner set of a user (`previousConnections.get(a)`, absent
read as empty). -/
def prevPartners (s : ServerState) (a : String) : List String :=
  (alGet s.previousConnections a).getD []

/-- The spec's `hasPaired(a, b)`: b is in a's previous-partner set. -/
abbrev hasPaired (s : ServerState) (a b : String) : Prop :=
  b ∈ prevPartners s a

/-- The spec's `pairingCount(id)`: `userConnectionCount.get(id) || 0`. -/
def pairingCount (s : ServerState) (a : String) : Nat :=
  (alGet s.userConnectionCount a).getD 0

/-- `Array.from(map.values()).filter(u => u.type === type)`. -/
def valuesOfType : List (String × WUser) → String → List WUser
  | [], _ => []
  | p :: rest, ty =>
    if p.2.type = ty then p.2 :: valuesOfType rest ty else valuesOfType rest ty

/-- The WaitingPool snapshot for a mode (server.js line 47). -/
def waitingSnapshot (s : ServerState) (ty : String) : List WUser :=
  valuesOfType s.waitingUsers ty

/-- `waiting.filter(user => user.id !== currentUserId)` (server.js line 56). -/
def filterNotSelf : List WUser → String → List WUser
  | [], _ => []
  | u :: rest, cur =>
    if u.id = cur then filterNotSelf rest cur else u :: filterNotSelf rest cur

/-- part_001 line 56-59: keep candidates that are neither the requester nor a
previous partner. -/
def filterNovel : List WUser → String → List String → List WUser
  | [], _, _ => []
  | u :: rest, cur, prev =>
    if u.id ≠ cur ∧ u.id ∉ prev then u :: filterNovel rest cur prev
    else filterNovel rest cur prev

/-- Fold computing the first element attaining the minimal score (what a JS
stable ascending sort followed by `[0]` returns). -/
def minByAux {α : Type} (f : α → ℚ) : α → List α → α
  | best, [] => best
  | best, y :: ys => minByAux f (if f y < f best then y else best) ys

/-- `list.sort((a, b) => f a - f b)[0]`, `none` on the empty list. -/
def selectMinBy {α : Type} (f : α → ℚ) : List α → Option α
  | [] => none
  | x :: xs => some (minByAux f x xs)

/-- The scoring map of server.js lines 61-77: base score = partner's
connection count, minus 2 when the requester has never connected with the
candidate, plus the random jitter (`Math.random() * 0.5`) drawn for the i-th
candidate. -/
def scoreList (s : ServerState) (userPrev : List String) (jit : Nat → ℚ) :
    Nat → List WUser → List (WUser × ℚ)
  | _, [] => []
  | i, u :: rest =>
    let base : ℚ := (pairingCount s u.id : ℚ)
    let score : ℚ := if u.id ∈ userPrev then base else base - 2
    (u, score + jit i) :: scoreList s userPrev jit (i + 1) rest

/-- `scoredPartners` of server.js line 61, with candidate indices made
explicit for the jitter draws. -/
def scoredPartnersOf (s : ServerState) (ty cur : String) (jit : Nat → ℚ) :
    List (WUser × ℚ) :=
  scoreList s (prevPartners s cur) jit 0 (filterNotSelf (waitingSnapshot s ty) cur)

/-- `getRandomUserFromWaiting` of src/server.js lines 46-85 (weighted scoring
with a soft novelty bonus). -/
def getRandomUserFromWaiting (s : ServerState) (ty cur : String) (jit : Nat → ℚ) :
    Option WUser :=
  let waiting := waitingSnapshot s ty
  if waiting = [] then none
  else if filterNotSelf waiting cur = [] then none
  else (selectMinBy Prod.snd (scoredPartnersOf s ty cur jit)).map Prod.fst

/-- `getRandomUserFromWaiting` of src/unnamed/part_001 lines 46-85: hard
filter to never-paired candidates, count-sorted, with a count-sorted fallback
over all candidates when no novel candidate exists. -/
def getRandomUserFromWaitingV1 (s : ServerState) (ty cur : String) : Option WUser :=
  let waiting := waitingSnapshot s ty
  if waiting = [] then none
  else
    let userPrev := prevPartners s cur
    let availablePartners := filterNovel waiting cur userPrev
    if availablePartners = [] then
      selectMinBy (fun u => (pairingCount s u.id : ℚ)) (filterNotSelf waiting cur)
    else
      selectMinBy (fun u => (pairingCount s u.id : ℚ)) availablePartners

/-- `trackConnection` of src/server.js lines 91-116; returns the
`hasConnectedBefore` flag. -/
def trackConnection (s : ServerState) (userId partnerId : String) (now : Nat) :
    Bool × ServerState :=
  let hasConnectedBefore : Bool := decide (partnerId ∈ prevPartners s userId)
  let prev1 := alSet s.previousConnections userId (setAdd (prevPartners s userId) partnerId)
  let s1 := { s with previousConnections := prev1 }
  let currentCount := (alGet s1.userConnectionCount userId).getD 0
  let s2 := { s1 with userConnectionCount := alSet s1.userConnectionCount userId (currentCount + 1) }
  let s3 := { s2 with userLastConnectionTime := alSet s2.userLastConnectionTime userId now }
  (hasConnectedBefore, s3)

/-- The pair of `trackConnection` calls the join handler makes on a successful
match (server.js lines 171-172); the spec calls this `recordPairing(a, b)`. -/
def recordPairing (s : ServerState) (a b : String) (now : Nat) : Bool × ServerState :=
  let r1 := trackConnection s a b now
  let r2 := trackConnection r1.2 b a now
  (r1.1, r2.2)

/-- `generateRoomId` (a uuid slice), modelled by a fresh counter. -/
def generateRoomIdOf (c : Nat) : String := "room-" ++ toString c

/-- `createRoom` of server.js lines 118-135, also appending to the ghost log
of created rooms. -/
def createRoom (s : ServerState) (user1 user2 ty : String) : Room × ServerState :=
  let roomId := generateRoomIdOf s.roomCounter
  let room : Room := { id := roomId, type := ty, users := [user1, user2], messages := [] }
  let s1 := { s with roomCounter := s.roomCounter + 1 }
  let s2 :=
    if ty = "chat" then { s1 with chatRooms := alSet s1.chatRooms roomId room }
    else { s1 with videoRooms := alSet s1.videoRooms roomId room }
  (room, { s2 with createdRooms := s2.createdRooms ++ [room] })

/-- `socket.join(roomId)`. -/
def socketJoin (s : ServerState) (socketId roomId : String) : ServerState :=
  let members := (alGet s.roomSockets roomId).getD []
  let members1 := if socketId ∈ members then members else members ++ [socketId]
  { s with roomSockets := alSet s.roomSockets roomId members1 }

/-- `socket.leave(roomId)`. -/
def socketLeave (s : ServerState) (socketId roomId : String) : ServerState :=
  let members := (alGet s.roomSockets roomId).getD []
  { s with roomSockets := alSet s.roomSockets roomId (removeAll members socketId) }

/-- socket.io removes a disconnecting socket from all of its rooms before the
`disconnect` handler runs. -/
def socketLeaveAll (s : ServerState) (socketId : String) : ServerState :=
  { s with roomSockets := s.roomSockets.map (fun p => (p.1, removeAll p.2 socketId)) }

/-- `io.to(roomId).emit(e)`: one delivery per current member socket. -/
def emitToRoom (s : ServerState) (roomId : String) (e : Event) : List Delivery :=
  ((alGet s.roomSockets roomId).getD []).map (fun sid => (Target.sock sid, e))

/-- `socket.to(roomId).emit(e)`: members except the sending socket. -/
def emitToRoomExcept (s : ServerState) (roomId senderSocket : String) (e : Event) :
    List Delivery :=
  (removeAll ((alGet s.roomSockets roomId).getD []) senderSocket).map
    (fun sid => (Target.sock sid, e))

/-- `activeUsers.get(socket.id)?.id || 'unknown'` (server.js line 208): the
empty string is falsy in JS, hence also replaced by `'unknown'`. -/
def senderOf (s : ServerState) (socketId : String) : String :=
  match alGet s.activeUsers socketId with
  | some u => if u.id = "" then "unknown" else u.id
  | none => "unknown"

/-- The matched branch of the `join` handler (server.js lines 165-188). -/
def joinMatched (s : ServerState) (socketId userId ty : String) (partner : WUser)
    (now : Nat) : ServerState × List Delivery :=
  let s1 := { s with waitingUsers := alDel (alDel s.waitingUsers userId) partner.id }
  let rp := recordPairing s1 userId partner.id now
  let cr := createRoom rp.2 userId partner.id ty
  let s2 := socketJoin cr.2 socketId cr.1.id
  let s3 := socketJoin s2 partner.socketId cr.1.id
  (s3, emitToRoom s3 cr.1.id
    (Event.partnerFound cr.1.id (if ty = "chat" then some partner.id else none) rp.1))

/-- The remainder of the `join` handler once the matchmaker's result is in
hand (server.js lines 163-196): the guarded matched branch, the
`waiting_for_partner` fallback, and the `user_count_update` broadcast. -/
def joinAfter (s : ServerState) (socketId userId ty : String) (pr : Option WUser)
    (now : Nat) : ServerState × List Delivery :=
  let r :=
    match pr with
    | some partner =>
      if partner.id ≠ userId then joinMatched s socketId userId ty partner now
      else (s, [(Target.sock socketId, Event.waitingForPartner)])
    | none => (s, [(Target.sock socketId, Event.waitingForPartner)])
  (r.1, r.2 ++ [(Target.all, Event.userCountUpdate r.1.activeUsers.length)])

/-- The `join` handler (server.js lines 142-197). -/
def joinStep (s : ServerState) (socketId userId ty : String) (jit : Nat → ℚ)
    (now : Nat) : ServerState × List Delivery :=
  let s1 := { s with activeUsers := alSet s.activeUsers socketId ⟨userId, socketId, ty⟩ }
  let s2 := { s1 with waitingUsers := alSet s1.waitingUsers userId ⟨userId, socketId, ty⟩ }
  joinAfter s2 socketId userId ty (getRandomUserFromWaiting s2 ty userId jit) now

/-- The `send_message` handler (server.js lines 200-217). -/
def sendMessageStep (s : ServerState) (socketId roomId message : String) :
    ServerState × List Delivery :=
  match alGet s.chatRooms roomId with
  | none => (s, [])
  | some room =>
    let messageObj : Msg := { text := message, sender := senderOf s socketId }
    let room1 := { room with messages := room.messages ++ [messageObj] }
    let s1 := { s with chatRooms := alSet s.chatRooms roomId room1 }
    (s1, emitToRoomExcept s1 roomId socketId (Event.newMessage messageObj))

/-- `rooms.filter(([_, room]) => room.users.includes(uid))` of the disconnect
handler (server.js lines 253-264). -/
def roomsContaining : List (String × Room) → String → List (String × Room)
  | [], _ => []
  | p :: rest, uid =>
    if uid ∈ p.2.users then p :: roomsContaining rest uid
    else roomsContaining rest uid

/-- One iteration of the disconnect handler's forEach over the rooms the
user occupied (server.js lines 267-275): emit `partner_disconnected` to the
room, then delete the room from its map. -/
def teardownRoom (acc : ServerState × List Delivery) (p : String × String) :
    ServerState × List Delivery :=
  let ds := acc.2 ++ emitToRoom acc.1 p.1 Event.partnerDisconnected
  if p.2 = "chat" then ({ acc.1 with chatRooms := alDel acc.1.chatRooms p.1 }, ds)
  else ({ acc.1 with videoRooms := alDel acc.1.videoRooms p.1 }, ds)

/-- The `disconnect` handler (server.js lines 242-283).  The socket has
already left all of its socket.io rooms when the handler runs. -/
def disconnectStep (s : ServerState) (socketId : String) : ServerState × List Delivery :=
  let s0 := socketLeaveAll s socketId
  match alGet s0.activeUsers socketId with
  | none => (s0, [])
  | some user =>
    let s1 := { s0 with activeUsers := alDel s0.activeUsers socketId }
    let s2 := { s1 with waitingUsers := alDel s1.waitingUsers user.id }
    let userRooms :=
      (roomsContaining s2.chatRooms user.id).map (fun p => (p.1, "chat"))
      ++ (roomsContaining s2.videoRooms user.id).map (fun p => (p.1, "video"))
    let r := userRooms.foldl teardownRoom (s2, [])
    (r.1, r.2 ++ [(Target.all, Event.userCountUpdate r.1.activeUsers.length)])

/-- The `leave_room` handler (server.js lines 286-298).  Note that it neither
checks that the room still exists nor removes the user from `activeUsers`. -/
def leaveRoomStep (s : ServerState) (socketId roomId : String) :
    ServerState × List Delivery :=
  match alGet s.activeUsers socketId with
  | none => (s, [])
  | some _ =>
    let s1 := socketLeave s socketId roomId
    let ds := emitToRoomExcept s1 roomId socketId Event.partnerDisconnected
    let s2 := { s1 with chatRooms := alDel s1.chatRooms roomId }
    (({ s2 with videoRooms := alDel s2.videoRooms roomId }), ds)

/-- Inbound events of the core (spec section 6) that mutate server state. -/
inductive REvent where
  | join (socketId userId ty : String) (jit : Nat → ℚ) (now : Nat)
  | sendMessage (socketId roomId message : String)
  | leaveRoom (socketId roomId : String)
  | disconnect (socketId : String)

def applyEvent (s : ServerState) : REvent → ServerState × List Delivery
  | .join sid uid ty jit now => joinStep s sid uid ty jit now
  | .sendMessage sid rid msg => sendMessageStep s sid rid msg
  | .leaveRoom sid rid => leaveRoomStep s sid rid
  | .disconnect sid => disconnectStep s sid

/-- The empty state the server boots with. -/
def initialState : ServerState :=
  { activeUsers := [], waitingUsers := [], chatRooms := [], videoRooms := []
    previousConnections := [], userConnectionCount := [], userLastConnectionTime := []
    roomSockets := [], roomCounter := 0, createdRooms := [] }

def runEvents (s : ServerState) : List REvent → ServerState
  | [] => s
  | e :: es => runEvents (applyEvent s e).1 es

/-- A room's two participant slots hold distinct client ids. -/
def distinctUsers (room : Room) : Bool :=
  match room.users with
  | [a, b] => decide (a ≠ b)
  | _ => false

/-- Well-formedness of the waiting pool: every entry is keyed by its own
user id (true of every state the join handler can build). -/
def WFWaiting (s : ServerState) : Prop :=
  ∀ p ∈ s.waitingUsers, p.1 = p.2.id

/-- An entry of the Omegle-style `videoWaitingQueue` of src/unnamed/part_000
(lines 268-275): user id, socket id, platform (`joinedAt` omitted). -/
structure VUser where
  userId : String
  socketId : String
  platform : String
deriving DecidableEq

/-- A room of `videoActiveRooms` (part_000 lines 69-81). -/
structure VRoom where
  id : String
  users : List VUser
  status : String
deriving DecidableEq

/-- The video-queue state of part_000 (lines 42-45). -/
structure VideoState where
  videoWaitingQueue : List VUser
  videoActiveRooms : List (String × VRoom)
  videoUserConnections : List (String × (String × String))  -- userId → (socketId, roomId)
  videoRoomCounter : Nat
deriving DecidableEq

/-- part_000 line 48: `room_${++videoRoomCounter}_${Date.now()}`. -/
def generateVideoRoomId (c now : Nat) : String :=
  "room_" ++ toString (c + 1) ++ "_" ++ toString now

/-- part_000 lines 51-56: `findIndex` + `splice(index, 1)` removes the first
entry with the given user id. -/
def removeFromVideoWaitingQueue : List VUser → String → List VUser
  | [], _ => []
  | u :: rest, uid =>
    if u.userId = uid then rest else u :: removeFromVideoWaitingQueue rest uid

/-- The scan loop of `findVideoPartner` (part_000 lines 60-65): skip entries
with the caller's id, splice out and return the first other entry. -/
def findVideoPartnerAux (cur : String) : List VUser → Option VUser × List VUser
  | [] => (none, [])
  | u :: rest =>
    if u.userId = cur then
      let r := findVideoPartnerAux cur rest
      (r.1, u :: r.2)
    else (some u, rest)

/-- `findVideoPartner` of part_000 lines 58-67. -/
def findVideoPartner (q : List VUser) (cur : VUser) : Option VUser × List VUser :=
  findVideoPartnerAux cur.userId (removeFromVideoWaitingQueue q cur.userId)

/-- `createVideoRoom` of part_000 lines 69-81. -/
def createVideoRoom (vs : VideoState) (user1 user2 : VUser) (now : Nat) :
    VRoom × VideoState :=
  let roomId := generateVideoRoomId vs.videoRoomCounter now
  let room : VRoom := { id := roomId, users := [user1, user2], status := "active" }
  let conns := alSet (alSet vs.videoUserConnections user1.userId (user1.socketId, roomId))
      user2.userId (user2.socketId, roomId)
  (room, { vs with videoRoomCounter := vs.videoRoomCounter + 1
                   videoActiveRooms := alSet vs.videoActiveRooms roomId room
                   videoUserConnections := conns })

/-- The `join_video_queue` handler of part_000 lines 268-296.  On a match the
`partner_found` payload sent to each side carries the counterpart's `userId`
and `platform`. -/
def joinVideoQueueStep (vs : VideoState) (socketId userId platform : String)
    (now : Nat) : VideoState × List Delivery :=
  let currentUser : VUser :=
    { userId := userId, socketId := socketId
      platform := if platform = "" then "web" else platform }
  let fp := findVideoPartner vs.videoWaitingQueue currentUser
  match fp.1 with
  | some partner =>
    let vs1 := { vs with videoWaitingQueue := fp.2 }
    let cr := createVideoRoom vs1 currentUser partner now
    (cr.2,
     [(Target.sock socketId, Event.partnerFoundVQ cr.1.id partner.userId partner.platform),
      (Target.sock partner.socketId, Event.partnerFoundVQ cr.1.id currentUser.userId currentUser.platform)])
  | none =>
    ({ vs with videoWaitingQueue := fp.2 ++ [currentUser] },
     [(Target.sock socketId, Event.waitingForPartner)])

/-- Zero jitter: a legal value of `Math.random() * 0.5`. -/
def jit0 : Nat → ℚ := fun _ => 0

/-- A state in which requester `r` has previously paired with `b` (who has
1 pairing) while novel candidate `c` (5 pairings) also waits in chat mode. -/
def cexState : ServerState :=
  { activeUsers := [("sr", ⟨"r", "sr", "chat"⟩), ("sb", ⟨"b", "sb", "chat"⟩),
                    ("sc", ⟨"c", "sc", "chat"⟩)]
    waitingUsers := [("b", ⟨"b", "sb", "chat"⟩), ("c", ⟨"c", "sc", "chat"⟩)]
    chatRooms := [], videoRooms := []
    previousConnections := [("r", ["b"]), ("b", ["r"])]
    userConnectionCount := [("r", 1), ("b", 1), ("c", 5)]
    userLastConnectionTime := [("r", 0), ("b", 0)]
    roomSockets := [], roomCounter := 0, createdRooms := [] }

/-- A state with one established chat session: users `a` (socket `sa`) and
`b` (socket `sb`) paired in room `R`. -/
def pairedChatState (a b sa sb R : String) : ServerState :=
  { activeUsers := [(sa, ⟨a, sa, "chat"⟩), (sb, ⟨b, sb, "chat"⟩)]
    waitingUsers := []
    chatRooms := [(R, ⟨R, "chat", [a, b], []⟩)]
    videoRooms := []
    previousConnections := [(a, [b]), (b, [a])]
    userConnectionCount := [(a, 1), (b, 1)]
    userLastConnectionTime := [(a, 0), (b, 0)]
    roomSockets := [(R, [sa, sb])]
    roomCounter := 1
    createdRooms := [⟨R, "chat", [a, b], []⟩] }

/-- The concrete instance of `pairedChatState` used by the scenario theorems. -/
def chatFixture : ServerState := pairedChatState "a" "b" "sa" "sb" "R"

/-- A video-queue state with `alice` waiting. -/
def vqState : VideoState :=
  { videoWaitingQueue := [⟨"alice", "s1", "web"⟩]
    videoActiveRooms := [], videoUserConnections := [], videoRoomCounter := 0 }

/-- `chatFixture` without the sender's registration in `activeUsers`. -/
def chatFixtureNoReg : ServerState := { chatFixture with activeUsers := [] }

/-- Two chat joins that produce one match. -/
def joinPairEvents : List REvent :=
  [REvent.join "s1" "a" "chat" jit0 0, REvent.join "s2" "b" "chat" jit0 0]

/-- A chat waiter and a video waiter, so that a later chat join matches while
the video pool stays non-empty. -/
def mixedWaitEvents : List REvent :=
  [REvent.join "s1" "a" "chat" jit0 0, REvent.join "s2" "b" "video" jit0 0]

/-- The observable teardown behaviour of one established chat session
(participants `a`, `b` on sockets `sa`, `sb`, room `R`): what the first leave
or disconnect by `a` delivers and deletes, and what each redundant second
teardown event does afterwards. -/
def teardownSpec (a b sa sb R : String) : Prop :=
  let s := pairedChatState a b sa sb R
  let lv1 := leaveRoomStep s sa R
  let dc1 := disconnectStep s sa
  lv1.2 = [(Target.sock sb, Event.partnerDisconnected)]
  ∧ alGet lv1.1.chatRooms R = none
  ∧ leaveRoomStep lv1.1 sa R = (lv1.1, [(Target.sock sb, Event.partnerDisconnected)])
  ∧ dc1.2 = [(Target.sock sb, Event.partnerDisconnected),
      (Target.all, Event.userCountUpdate 1)]
  ∧ alGet dc1.1.chatRooms R = none
  ∧ disconnectStep dc1.1 sa = (dc1.1, [])
  ∧ leaveRoomStep dc1.1 sa R = (dc1.1, [])
  ∧ (disconnectStep lv1.1 sa).2 = [(Target.all, Event.userCountUpdate 1)]

theorem alGet_alSet_self {α : Type} (m : List (String × α)) (k : String) (v : α) :
    alGet (alSet m k v) k = some v := by
  induction m with
  | nil => simp [alSet, alGet]
  | cons p rest ih =>
    by_cases h : p.1 = k
    · simp [alSet, alGet, h]
    · simp [alSet, alGet, h, ih]

theorem alGet_alSet_ne {α : Type} (m : List (String × α)) {k k' : String} (v : α)
    (h : k ≠ k') : alGet (alSet m k v) k' = alGet m k' := by
  induction m with
  | nil => simp [alSet, alGet, h]
  | cons p rest ih =>
    by_cases hp : p.1 = k
    · simp [alSet, alGet, hp, h]
    · simp only [alSet, if_neg hp]
      by_cases hp' : p.1 = k'
      · simp [alGet, hp']
      · simp [alGet, hp', ih]

theorem mem_alSet {α : Type} {m : List (String × α)} {k : String} {v : α}
    {p : String × α} (h : p ∈ alSet m k v) : p = (k, v) ∨ p ∈ m := by
  induction m with
  | nil =>
    simp only [alSet, List.mem_singleton] at h
    exact Or.inl h
  | cons q rest ih =>
    by_cases hq : q.1 = k
    · simp only [alSet, if_pos hq, List.mem_cons] at h
      rcases h with h | h
      · exact Or.inl h
      · exact Or.inr (List.mem_cons_of_mem _ h)
    · simp only [alSet, if_neg hq, List.mem_cons] at h
      rcases h with h | h
      · exact Or.inr (h ▸ List.mem_cons_self _ _)
      · rcases ih h with h' | h'
        · exact Or.inl h'
        · exact Or.inr (List.mem_cons_of_mem _ h')

theorem mem_alDel {α : Type} {m : List (String × α)} {k : String}
    {p : String × α} (h : p ∈ alDel m k) : p ∈ m ∧ p.1 ≠ k := by
  induction m with
  | nil => exact absurd h (by simp [alDel])
  | cons q rest ih =>
    by_cases hq : q.1 = k
    · simp only [alDel, if_pos hq] at h
      exact ⟨List.mem_cons_of_mem _ (ih h).1, (ih h).2⟩
    · simp only [alDel, if_neg hq, List.mem_cons] at h
      rcases h with h | h
      · exact ⟨h ▸ List.mem_cons_self _ _, h ▸ hq⟩
      · exact ⟨List.mem_cons_of_mem _ (ih h).1, (ih h).2⟩

theorem mem_setAdd_self (l : List String) (x : String) : x ∈ setAdd l x := by
  unfold setAdd
  split
  · assumption
  · simp

theorem minByAux_mem {α : Type} (f : α → ℚ) (b : α) (l : List α) :
    minByAux f b l = b ∨ minByAux f b l ∈ l := by
  induction l generalizing b with
  | nil => simp [minByAux]
  | cons y ys ih =>
    simp only [minByAux]
    split
    · rcases ih y with h | h
      · rw [h]
        exact Or.inr (List.mem_cons_self _ _)
      · exact Or.inr (List.mem_cons_of_mem _ h)
    · rcases ih b with h | h
      · exact Or.inl h
      · exact Or.inr (List.mem_cons_of_mem _ h)

theorem minByAux_min {α : Type} (f : α → ℚ) (b : α) (l : List α) :
    f (minByAux f b l) ≤ f b ∧ ∀ y ∈ l, f (minByAux f b l) ≤ f y := by
  induction l generalizing b with
  | nil => simp [minByAux]
  | cons y ys ih =>
    simp only [minByAux]
    split
    · rename_i hlt
      refine ⟨le_trans (ih y).1 (le_of_lt hlt), ?_⟩
      intro z hz
      rcases List.mem_cons.mp hz with h | h
      · rw [h]
        exact (ih y).1
      · exact (ih y).2 z h
    · rename_i hlt
      refine ⟨(ih b).1, ?_⟩
      intro z hz
      rcases List.mem_cons.mp hz with h | h
      · rw [h]
        exact le_trans (ih b).1 (le_of_not_lt hlt)
      · exact (ih b).2 z h

theorem selectMinBy_mem {α : Type} {f : α → ℚ} {l : List α} {x : α}
    (h : selectMinBy f l = some x) : x ∈ l := by
  cases l with
  | nil => simp [selectMinBy] at h
  | cons y ys =>
    simp only [selectMinBy, Option.some.injEq] at h
    subst h
    rcases minByAux_mem f y ys with h' | h'
    · rw [h']
      exact List.mem_cons_self _ _
    · exact List.mem_cons_of_mem _ h'

theorem selectMinBy_min {α : Type} {f : α → ℚ} {l : List α} {x : α}
    (h : selectMinBy f l = some x) : ∀ y ∈ l, f x ≤ f y := by
  cases l with
  | nil => simp [selectMinBy] at h
  | cons z zs =>
    simp only [selectMinBy, Option.some.injEq] at h
    subst h
    intro y hy
    rcases List.mem_cons.mp hy with h' | h'
    · rw [h']
      exact (minByAux_min f z zs).1
    · exact (minByAux_min f z zs).2 y h'

theorem mem_filterNovel {l : List WUser} {cur : String} {prev : List String}
    {u : WUser} : u ∈ filterNovel l cur prev ↔ u ∈ l ∧ u.id ≠ cur ∧ u.id ∉ prev := by
  induction l with
  | nil => simp [filterNovel]
  | cons v rest ih =>
    by_cases hv : v.id ≠ cur ∧ v.id ∉ prev
    · simp only [filterNovel, if_pos hv, List.mem_cons, ih]
      constructor
      · rintro (h | ⟨h1, h2⟩)
        · exact ⟨Or.inl h, h ▸ hv⟩
        · exact ⟨Or.inr h1, h2⟩
      · rintro ⟨h1 | h1, h2⟩
        · exact Or.inl h1
        · exact Or.inr ⟨h1, h2⟩
    · simp only [filterNovel, if_neg hv, ih, List.mem_cons]
      constructor
      · rintro ⟨h1, h2⟩
        exact ⟨Or.inr h1, h2⟩
      · rintro ⟨h1 | h1, h2⟩
        · exact absurd (h1 ▸ h2) hv
        · exact ⟨h1, h2⟩

theorem mem_scoreList {s : ServerState} {prev : List String} {jit : Nat → ℚ}
    {i : Nat} {l : List WUser} {p : WUser × ℚ} (h : p ∈ scoreList s prev jit i l) :
    p.1 ∈ l ∧ ∃ j, p.2 = (if p.1.id ∈ prev then (pairingCount s p.1.id : ℚ)
      else (pairingCount s p.1.id : ℚ) - 2) + jit j := by
  induction l generalizing i with
  | nil => simp [scoreList] at h
  | cons u rest ih =>
    simp only [scoreList, List.mem_cons] at h
    rcases h with h | h
    · subst h
      exact ⟨List.mem_cons_self _ _, ⟨i, rfl⟩⟩
    · exact ⟨List.mem_cons_of_mem _ (ih h).1, (ih h).2⟩

theorem mem_emitToRoom_snd {s : ServerState} {rid : String} {e : Event}
    {d : Delivery} (h : d ∈ emitToRoom s rid e) : d.2 = e := by
  simp only [emitToRoom] at h
  rcases List.mem_map.mp h with ⟨x, _, hx⟩
  rw [← hx]

/-- C3 (amended to distinct ids): for all distinct client ids a and b and any
state, after `recordPairing(a,b)` — the join handler's pair of
`trackConnection` calls — `hasPaired(a,b)` and `hasPaired(b,a)` both hold,
and `pairingCount(a)` and `pairingCount(b)` each increased by exactly 1. -/
theorem C3_recordPairing_symmetric (s : ServerState) (a b : String) (now : Nat)
    (hab : a ≠ b) :
    hasPaired (recordPairing s a b now).2 a b
    ∧ hasPaired (recordPairing s a b now).2 b a
    ∧ pairingCount (recordPairing s a b now).2 a = pairingCount s a + 1
    ∧ pairingCount (recordPairing s a b now).2 b = pairingCount s b + 1 := by
  have hba : b ≠ a := Ne.symm hab
  refine ⟨?_, ?_, ?_, ?_⟩ <;>
    simp [recordPairing, trackConnection, hasPaired, prevPartners, pairingCount,
      alGet_alSet_self, alGet_alSet_ne _ _ hba, alGet_alSet_ne _ _ hab, mem_setAdd_self]

/-- C7: a `send_message` whose roomId names no active chat session is a
silent no-op: no delivery to anyone and no state change at all. -/
theorem C7_unknown_room_noop (s : ServerState) (sid R msg : String)
    (h : alGet s.chatRooms R = none) :
    sendMessageStep s sid R msg = (s, []) := by
  simp [sendMessageStep, h]

/-- C10: a `send_message` into an active chat session from a socket that is
not registered in `activeUsers` is still logged and relayed, with the sender
field set to the literal string `unknown`. -/
theorem C10_unknown_sender (s : ServerState) (sid R msg : String) (room : Room)
    (hroom : alGet s.chatRooms R = some room)
    (hreg : alGet s.activeUsers sid = none) :
    alGet (sendMessageStep s sid R msg).1.chatRooms R =
      some { room with messages := room.messages ++ [⟨msg, "unknown"⟩] }
    ∧ (sendMessageStep s sid R msg).2 =
      (removeAll ((alGet s.roomSockets R).getD []) sid).map
        (fun x => (Target.sock x, Event.newMessage ⟨msg, "unknown"⟩)) := by
  constructor <;>
    simp [sendMessageStep, senderOf, hroom, hreg, emitToRoomExcept, alGet_alSet_self]

/-- C6: a `send_message` into an active chat session whose transport room
holds exactly the two participants' sockets delivers the new message to the
other participant only, never echoes it to the sender, and appends the
message to the session's log. -/
theorem C6_relay_to_partner_only (s : ServerState) (R sa sb message : String)
    (room : Room) (hroom : alGet s.chatRooms R = some room)
    (hsock : alGet s.roomSockets R = some [sa, sb]) (hne : sa ≠ sb) :
    (sendMessageStep s sa R message).2 =
      [(Target.sock sb, Event.newMessage ⟨message, senderOf s sa⟩)]
    ∧ alGet (sendMessageStep s sa R message).1.chatRooms R =
      some { room with messages := room.messages ++ [⟨message, senderOf s sa⟩] }
    ∧ ∀ e, (Target.sock sa, e) ∉ (sendMessageStep s sa R message).2 := by
  have hba : ¬ (sb = sa) := fun h => hne h.symm
  refine ⟨?_, ?_, ?_⟩ <;>
    simp [sendMessageStep, hroom, hsock, emitToRoomExcept, removeAll, hba,
      alGet_alSet_self, hne]

/-- C1 (amended to the part_001 variant): if a never-paired candidate is
waiting in the requester's mode, the hard-filter matchmaker never returns a
previously-paired candidate. -/
theorem C1_strict_no_repeat (s : ServerState) (ty cur : String) (w u : WUser)
    (hw : w ∈ waitingSnapshot s ty) (hwid : w.id ≠ cur)
    (hnov : ¬ hasPaired s cur w.id)
    (hsel : getRandomUserFromWaitingV1 s ty cur = some u) :
    ¬ hasPaired s cur u.id := by
  have hwaiting : waitingSnapshot s ty ≠ [] := List.ne_nil_of_mem hw
  have hw' : w ∈ filterNovel (waitingSnapshot s ty) cur (prevPartners s cur) :=
    mem_filterNovel.mpr ⟨hw, hwid, hnov⟩
  have havail : filterNovel (waitingSnapshot s ty) cur (prevPartners s cur) ≠ [] :=
    List.ne_nil_of_mem hw'
  simp only [getRandomUserFromWaitingV1] at hsel
  rw [if_neg hwaiting, if_neg havail] at hsel
  exact (mem_filterNovel.mp (selectMinBy_mem hsel)).2.2

/-- C9 (amended): in src/server.js every candidate (there is no novel/repeat
partition) is scored `pairingCount(candidate) + jitter`, with an additional
−2 bonus when the candidate is novel, and the first minimum-scoring candidate
is the one selected. -/
theorem C9_score_formula_and_min (s : ServerState) (ty cur : String) (jit : Nat → ℚ) :
    (∀ p ∈ scoredPartnersOf s ty cur jit, ∃ j,
        p.2 = (if hasPaired s cur p.1.id then (pairingCount s p.1.id : ℚ)
          else (pairingCount s p.1.id : ℚ) - 2) + jit j)
    ∧ ∀ u, getRandomUserFromWaiting s ty cur jit = some u →
        ∃ q ∈ scoredPartnersOf s ty cur jit, q.1 = u ∧
          ∀ p ∈ scoredPartnersOf s ty cur jit, q.2 ≤ p.2 := by
  constructor
  · intro p hp
    exact (mem_scoreList hp).2
  · intro u hu
    simp only [getRandomUserFromWaiting] at hu
    split at hu
    · simp at hu
    · split at hu
      · simp at hu
      · rcases Option.map_eq_some'.mp hu with ⟨q, hq, hq1⟩
        exact ⟨q, selectMinBy_mem hq, hq1, selectMinBy_min hq⟩

theorem mem_valuesOfType {m : List (String × WUser)} {ty : String} {u : WUser}
    (h : u ∈ valuesOfType m ty) : ∃ p ∈ m, p.2 = u := by
  induction m with
  | nil => simp [valuesOfType] at h
  | cons q rest ih =>
    by_cases hq : q.2.type = ty
    · simp only [valuesOfType, if_pos hq, List.mem_cons] at h
      rcases h with h | h
      · exact ⟨q, List.mem_cons_self _ _, h.symm⟩
      · rcases ih h with ⟨p, hp, hp2⟩
        exact ⟨p, List.mem_cons_of_mem _ hp, hp2⟩
    · simp only [valuesOfType, if_neg hq] at h
      rcases ih h with ⟨p, hp, hp2⟩
      exact ⟨p, List.mem_cons_of_mem _ hp, hp2⟩

theorem joinMatched_createdRooms (s : ServerState) (sid uid ty : String)
    (partner : WUser) (now : Nat) :
    (joinMatched s sid uid ty partner now).1.createdRooms
      = s.createdRooms ++ [⟨generateRoomIdOf s.roomCounter, ty, [uid, partner.id], []⟩] := by
  unfold joinMatched recordPairing trackConnection createRoom socketJoin
  dsimp only
  split <;> rfl

theorem joinMatched_waitingUsers (s : ServerState) (sid uid ty : String)
    (partner : WUser) (now : Nat) :
    (joinMatched s sid uid ty partner now).1.waitingUsers
      = alDel (alDel s.waitingUsers uid) partner.id := by
  unfold joinMatched recordPairing trackConnection createRoom socketJoin
  dsimp only
  split <;> rfl

theorem foldl_teardownRoom_fields (l : List (String × String))
    (acc : ServerState × List Delivery) :
    (l.foldl teardownRoom acc).1.createdRooms = acc.1.createdRooms
    ∧ (l.foldl teardownRoom acc).1.waitingUsers = acc.1.waitingUsers := by
  induction l generalizing acc with
  | nil => exact ⟨rfl, rfl⟩
  | cons p rest ih =>
    have h1 := ih (teardownRoom acc p)
    have h2 : (teardownRoom acc p).1.createdRooms = acc.1.createdRooms
        ∧ (teardownRoom acc p).1.waitingUsers = acc.1.waitingUsers := by
      unfold teardownRoom
      dsimp only
      split <;> exact ⟨rfl, rfl⟩
    exact ⟨h1.1.trans h2.1, h1.2.trans h2.2⟩

theorem applyEvent_createdRooms_distinct (s : ServerState) (e : REvent) (r : Room)
    (h : r ∈ (applyEvent s e).1.createdRooms) :
    r ∈ s.createdRooms ∨ distinctUsers r = true := by
  cases e with
  | sendMessage sid rid msg =>
    left
    simp only [applyEvent, sendMessageStep] at h
    split at h <;> exact h
  | leaveRoom sid rid =>
    left
    simp only [applyEvent, leaveRoomStep] at h
    split at h <;> exact h
  | disconnect sid =>
    left
    simp only [applyEvent, disconnectStep] at h
    split at h
    · exact h
    · rw [(foldl_teardownRoom_fields _ _).1] at h
      exact h
  | join sid uid ty jit now =>
    simp only [applyEvent, joinStep, joinAfter] at h
    split at h
    · rename_i partner
      split at h
      · rename_i hne
        rw [joinMatched_createdRooms] at h
        rcases List.mem_append.mp h with h | h
        · exact Or.inl h
        · right
          simp only [List.mem_singleton] at h
          subst h
          simp only [distinctUsers, decide_eq_true_eq]
          exact fun hh => hne hh.symm
      · exact Or.inl h
    · exact Or.inl h

theorem runEvents_createdRooms_distinct (evs : List REvent) :
    ∀ s : ServerState, (∀ r ∈ s.createdRooms, distinctUsers r = true) →
      ∀ r ∈ (runEvents s evs).createdRooms, distinctUsers r = true := by
  induction evs with
  | nil => exact fun s hs => hs
  | cons e rest ih =>
    intro s hs
    refine ih _ (fun r hr => ?_)
    rcases applyEvent_createdRooms_distinct s e r hr with h | h
    · exact hs r h
    · exact h

theorem WFWaiting_applyEvent (s : ServerState) (e : REvent) (h : WFWaiting s) :
    WFWaiting (applyEvent s e).1 := by
  have hset : ∀ (m : List (String × WUser)) (sid uid ty : String),
      (∀ p ∈ m, p.1 = p.2.id) →
      ∀ p ∈ alSet m uid ⟨uid, sid, ty⟩, p.1 = p.2.id := by
    intro m sid uid ty hm p hp
    rcases mem_alSet hp with h' | h'
    · rw [h']
    · exact hm p h'
  have hdel : ∀ (m : List (String × WUser)) (k : String),
      (∀ p ∈ m, p.1 = p.2.id) → ∀ p ∈ alDel m k, p.1 = p.2.id := by
    intro m k hm p hp
    exact hm p (mem_alDel hp).1
  cases e with
  | join sid uid ty jit now =>
    simp only [applyEvent, joinStep, joinAfter, WFWaiting]
    split
    · rename_i partner
      split
      · intro p hp
        rw [joinMatched_waitingUsers] at hp
        exact hdel _ _ (hdel _ _ (hset s.waitingUsers sid uid ty h)) p hp
      · exact hset s.waitingUsers sid uid ty h
    · exact hset s.waitingUsers sid uid ty h
  | sendMessage sid rid msg =>
    simp only [applyEvent, sendMessageStep, WFWaiting]
    split
    · exact h
    · exact h
  | leaveRoom sid rid =>
    simp only [applyEvent, leaveRoomStep, WFWaiting]
    split
    · exact h
    · exact h
  | disconnect sid =>
    simp only [applyEvent, disconnectStep, WFWaiting]
    split
    · exact h
    · intro p hp
      rw [(foldl_teardownRoom_fields _ _).2] at hp
      exact hdel _ _ h p hp

theorem WFWaiting_runEvents (evs : List REvent) :
    WFWaiting (runEvents initialState evs) := by
  have aux : ∀ s : ServerState, WFWaiting s → WFWaiting (runEvents s evs) := by
    induction evs with
    | nil => exact fun s h => h
    | cons e rest ih => exact fun s h => ih _ (WFWaiting_applyEvent s e h)
  refine aux initialState ?_
  intro p hp
  simp [initialState] at hp

theorem joinAfter_match_shape (s : ServerState) (sid uid ty : String)
    (pr : Option WUser) (now : Nat) (room : Room)
    (heq : (joinAfter s sid uid ty pr now).1.createdRooms
      = s.createdRooms ++ [room]) :
    ∃ partner, pr = some partner ∧ partner.id ≠ uid
      ∧ room.users = [uid, partner.id]
      ∧ (joinAfter s sid uid ty pr now).1.waitingUsers
          = alDel (alDel s.waitingUsers uid) partner.id := by
  cases pr with
  | none =>
    exfalso
    simp only [joinAfter] at heq
    have hl := congrArg List.length heq
    simp at hl
  | some partner =>
    by_cases hne : partner.id ≠ uid
    · refine ⟨partner, rfl, hne, ?_, ?_⟩
      · simp only [joinAfter, if_pos hne] at heq
        rw [joinMatched_createdRooms] at heq
        have h1 : ([(⟨generateRoomIdOf s.roomCounter, ty, [uid, partner.id], []⟩ : Room)])
            = [room] := List.append_cancel_left heq
        have h2 : (⟨generateRoomIdOf s.roomCounter, ty, [uid, partner.id], []⟩ : Room)
            = room := by
          simpa using h1
        rw [← h2]
      · simp only [joinAfter, if_pos hne]
        exact joinMatched_waitingUsers _ _ _ _ _ _
    · exfalso
      simp only [joinAfter, if_neg hne] at heq
      have hl := congrArg List.length heq
      simp at hl

/-- C4: over every event sequence, every room the join handler ever creates
has exactly two participant slots holding distinct client ids. -/
theorem C4_no_self_pairing (evs : List REvent) (room : Room)
    (h : room ∈ (runEvents initialState evs).createdRooms) :
    distinctUsers room = true :=
  runEvents_createdRooms_distinct evs initialState
    (by intro r hr; simp [initialState] at hr) room h

/-- C5: starting from any reachable state, when a join creates a session the
two participants are absent from every waiting-pool snapshot of the
post-state, in every mode. -/
theorem C5_match_clears_waiting (evs : List REvent) (sid uid ty : String)
    (jit : Nat → ℚ) (now : Nat) (room : Room)
    (heq : (joinStep (runEvents initialState evs) sid uid ty jit now).1.createdRooms
      = (runEvents initialState evs).createdRooms ++ [room]) :
    ∀ mode u,
      u ∈ waitingSnapshot (joinStep (runEvents initialState evs) sid uid ty jit now).1 mode →
      u.id ∉ room.users := by
  intro mode u hu
  have hwf : WFWaiting (runEvents initialState evs) := WFWaiting_runEvents evs
  simp only [joinStep] at heq hu
  rcases joinAfter_match_shape _ sid uid ty _ now room heq with
    ⟨partner, hpr, hne, husers, hwait⟩
  simp only [waitingSnapshot] at hu
  rw [hwait] at hu
  rcases mem_valuesOfType hu with ⟨p, hp, hp2⟩
  have h1 := mem_alDel hp
  have h2 := mem_alDel h1.1
  have hid : p.1 = u.id := by
    rcases mem_alSet h2.1 with h' | h'
    · exact absurd (congrArg Prod.fst h') (by simpa using h2.2)
    · rw [hwf p h', hp2]
  rw [husers]
  simp only [List.mem_cons, List.not_mem_nil, or_false]
  rintro (h' | h')
  · exact h2.2 (hid ▸ h')
  · exact h1.2 (hid ▸ h')

/-- C2 (amended to the join handler): every `partner_found` the join handler
emits for a video-mode pairing carries `partnerId = null`. -/
theorem C2_video_withholds_identity (s : ServerState) (sid uid : String)
    (jit : Nat → ℚ) (now : Nat) :
    ∀ d ∈ (joinStep s sid uid "video" jit now).2, ∀ r pid rep,
      d.2 = Event.partnerFound r pid rep → pid = none := by
  intro d hd r pid rep hev
  simp only [joinStep] at hd
  rcases List.mem_append.mp hd with hd | hd
  · split at hd
    · split at hd
      · simp only [joinMatched] at hd
        have h2 := mem_emitToRoom_snd hd
        rw [hev] at h2
        simp only [Event.partnerFound.injEq] at h2
        rw [h2.2.1]
        simp
      · simp only [List.mem_singleton] at hd
        rw [hd] at hev
        simp at hev
    · simp only [List.mem_singleton] at hd
      rw [hd] at hev
      simp at hev
  · simp only [List.mem_singleton] at hd
    rw [hd] at hev
    simp at hev

/-- C8 (amended): a first leave or disconnect by one chat-session participant
delivers exactly one `partner_disconnected` to the other participant and
removes the session from lookup; a second disconnect, and a leave after a
disconnect, are no-ops; but a second `leave_room` re-delivers
`partner_disconnected` to the socket still in the transport room (with no
state change), and a disconnect after a leave still deregisters the client
and broadcasts a user count (with no further `partner_disconnected`). -/
theorem C8_teardown (a b sa sb R : String) (hab : a ≠ b) (hsab : sa ≠ sb) :
    teardownSpec a b sa sb R := by
  have hba : ¬ (b = a) := fun h => hab h.symm
  have hbsa : ¬ (sb = sa) := fun h => hsab h.symm
  unfold teardownSpec
  refine ⟨?_, ?_, ?_, ?_, ?_, ?_, ?_, ?_⟩ <;>
    simp [pairedChatState, leaveRoomStep, disconnectStep, socketLeave, socketLeaveAll,
      emitToRoom, emitToRoomExcept, removeAll, roomsContaining, teardownRoom,
      alGet, alSet, alDel, hab, hba, hsab, hbsa]

/-- C1 counterexample: in src/server.js, with novel candidate `c` (5 prior
pairings) and previously-paired candidate `b` (1 pairing) both waiting in the
requester's mode, the matchmaker selects the repeat `b` (score 1) over the
novel `c` (score 5 − 2 = 3), here at zero jitter. -/
theorem C1_counterexample :
    (⟨"c", "sc", "chat"⟩ : WUser) ∈ waitingSnapshot cexState "chat"
    ∧ ("c" : String) ≠ "r"
    ∧ ¬ hasPaired cexState "r" "c"
    ∧ getRandomUserFromWaiting cexState "chat" "r" jit0 = some ⟨"b", "sb", "chat"⟩
    ∧ hasPaired cexState "r" "b" := by
  refine ⟨by decide, by decide, by decide, ?_, by decide⟩
  simp [getRandomUserFromWaiting, waitingSnapshot, valuesOfType, filterNotSelf,
    scoredPartnersOf, scoreList, prevPartners, pairingCount, alGet, cexState, jit0,
    selectMinBy, minByAux]
  norm_num

/-- C1 witness: in the same pool, the part_001 hard-filter variant selects
the novel candidate `c`, which is indeed not a previous partner. -/
theorem C1_witness :
    ((⟨"c", "sc", "chat"⟩ : WUser) ∈ waitingSnapshot cexState "chat"
      ∧ ("c" : String) ≠ "r"
      ∧ ¬ hasPaired cexState "r" "c"
      ∧ getRandomUserFromWaitingV1 cexState "chat" "r" = some ⟨"c", "sc", "chat"⟩)
    ∧ ¬ hasPaired cexState "r" (⟨"c", "sc", "chat"⟩ : WUser).id :=
  ⟨⟨by decide, by decide, by decide, by decide⟩,
   C1_strict_no_repeat cexState "chat" "r" ⟨"c", "sc", "chat"⟩ ⟨"c", "sc", "chat"⟩
     (by decide) (by decide) (by decide) (by decide)⟩

/-- C2 counterexample: a video-mode pairing made through `join_video_queue`
(part_000) delivers `partner_found` payloads that disclose each counterpart's
`userId` and `platform` instead of a null partner id. -/
theorem C2_counterexample :
    (joinVideoQueueStep vqState "s2" "bob" "web" 0).2 =
      [(Target.sock "s2", Event.partnerFoundVQ "room_1_0" "alice" "web"),
       (Target.sock "s1", Event.partnerFoundVQ "room_1_0" "bob" "web")] := by decide

/-- C2 witness: a concrete video pairing through the `join` handler, whose
`partner_found` delivery indeed carries a null partner id. -/
theorem C2_witness :
    ((Target.sock "s2", Event.partnerFound "room-0" none false) : Delivery)
      ∈ (joinStep (runEvents initialState [REvent.join "s1" "a" "video" jit0 0])
          "s2" "b" "video" jit0 0).2
    ∧ (none : Option String) = none :=
  ⟨by decide,
   C2_video_withholds_identity
     (runEvents initialState [REvent.join "s1" "a" "video" jit0 0]) "s2" "b" jit0 0
     (Target.sock "s2", Event.partnerFound "room-0" none false)
     (by decide) "room-0" none false rfl⟩

/-- C3 counterexample: at `a = b = "u"` the pair of `trackConnection` calls
increments the pairing count by 2, not by 1 as the unrestricted claim says. -/
theorem C3_counterexample :
    pairingCount (recordPairing initialState "u" "u" 0).2 "u" = 2
    ∧ pairingCount initialState "u" + 1 = 1 := by decide

/-- C3 witness: the amended property at distinct ids `a`, `b` on the empty
history. -/
theorem C3_witness :
    ("a" : String) ≠ "b"
    ∧ (hasPaired (recordPairing initialState "a" "b" 0).2 "a" "b"
      ∧ hasPaired (recordPairing initialState "a" "b" 0).2 "b" "a"
      ∧ pairingCount (recordPairing initialState "a" "b" 0).2 "a"
          = pairingCount initialState "a" + 1
      ∧ pairingCount (recordPairing initialState "a" "b" 0).2 "b"
          = pairingCount initialState "b" + 1) :=
  ⟨by decide, C3_recordPairing_symmetric initialState "a" "b" 0 (by decide)⟩

/-- C4 witness: the room created by two chat joins has distinct users. -/
theorem C4_witness :
    (⟨"room-0", "chat", ["b", "a"], []⟩ : Room)
      ∈ (runEvents initialState joinPairEvents).createdRooms
    ∧ distinctUsers ⟨"room-0", "chat", ["b", "a"], []⟩ = true :=
  ⟨by decide, C4_no_self_pairing joinPairEvents _ (by decide)⟩

/-- C5 witness: after `c` joins and is matched with `a`, the video waiter `b`
is still in its snapshot and neither participant of the new room appears in
any snapshot. -/
theorem C5_witness :
    ((joinStep (runEvents initialState mixedWaitEvents) "s3" "c" "chat" jit0 0).1.createdRooms
      = (runEvents initialState mixedWaitEvents).createdRooms
        ++ [⟨"room-0", "chat", ["c", "a"], []⟩])
    ∧ (⟨"b", "s2", "video"⟩ : WUser)
        ∈ waitingSnapshot
            (joinStep (runEvents initialState mixedWaitEvents) "s3" "c" "chat" jit0 0).1 "video"
    ∧ ∀ mode u,
        u ∈ waitingSnapshot
            (joinStep (runEvents initialState mixedWaitEvents) "s3" "c" "chat" jit0 0).1 mode →
        u.id ∉ (⟨"room-0", "chat", ["c", "a"], []⟩ : Room).users :=
  ⟨by decide, by decide,
   C5_match_clears_waiting mixedWaitEvents "s3" "c" "chat" jit0 0 _ (by decide)⟩

/-- C6 witness: in the fixture session, `a`'s message reaches `b` only and
is appended to the log. -/
theorem C6_witness :
    (alGet chatFixture.chatRooms "R" = some ⟨"R", "chat", ["a", "b"], []⟩
      ∧ alGet chatFixture.roomSockets "R" = some ["sa", "sb"]
      ∧ ("sa" : String) ≠ "sb")
    ∧ ((sendMessageStep chatFixture "sa" "R" "hi").2 =
        [(Target.sock "sb", Event.newMessage ⟨"hi", senderOf chatFixture "sa"⟩)]
      ∧ alGet (sendMessageStep chatFixture "sa" "R" "hi").1.chatRooms "R" =
          some { (⟨"R", "chat", ["a", "b"], []⟩ : Room) with
                  messages := (⟨"R", "chat", ["a", "b"], []⟩ : Room).messages
                    ++ [⟨"hi", senderOf chatFixture "sa"⟩] }
      ∧ ∀ e, ((Target.sock "sa", e) : Delivery) ∉ (sendMessageStep chatFixture "sa" "R" "hi").2) :=
  ⟨⟨by decide, by decide, by decide⟩,
   C6_relay_to_partner_only chatFixture "R" "sa" "sb" "hi" ⟨"R", "chat", ["a", "b"], []⟩
     (by decide) (by decide) (by decide)⟩

/-- C7 witness: a `send_message` with an unknown room id leaves the fixture
state untouched and delivers nothing. -/
theorem C7_witness :
    alGet chatFixture.chatRooms "nope" = none
    ∧ sendMessageStep chatFixture "sa" "nope" "hi" = (chatFixture, []) :=
  ⟨by decide, C7_unknown_room_noop chatFixture "sa" "nope" "hi" (by decide)⟩

/-- C8 counterexample: after a first `leave_room` has already removed the
session, a second `leave_room` by the same client still delivers another
`partner_disconnected` to the partner — not the claimed no-op. -/
theorem C8_counterexample :
    alGet (leaveRoomStep chatFixture "sa" "R").1.chatRooms "R" = none
    ∧ (leaveRoomStep (leaveRoomStep chatFixture "sa" "R").1 "sa" "R").2
        = [(Target.sock "sb", Event.partnerDisconnected)] := by decide

/-- C8 witness: the amended teardown behaviour at concrete names. -/
theorem C8_witness :
    ("a" : String) ≠ "b" ∧ ("sa" : String) ≠ "sb"
    ∧ teardownSpec "a" "b" "sa" "sb" "R" :=
  ⟨by decide, by decide, C8_teardown "a" "b" "sa" "sb" "R" (by decide) (by decide)⟩

/-- C9 counterexample: candidate `c` has pairingCount 5 yet is scored
5 − 2 + 0 = 3 at zero jitter — the −2 novelty bonus the claim denies is part
of the score. -/
theorem C9_counterexample :
    ((⟨"c", "sc", "chat"⟩ : WUser), (3 : ℚ)) ∈ scoredPartnersOf cexState "chat" "r" jit0
    ∧ pairingCount cexState "c" = 5
    ∧ ¬ ((3 : ℚ) = (pairingCount cexState "c" : ℚ) + jit0 1) := by
  refine ⟨?_, by decide, ?_⟩
  · simp [scoredPartnersOf, scoreList, waitingSnapshot, valuesOfType, filterNotSelf,
      prevPartners, pairingCount, alGet, cexState, jit0]
    norm_num
  · simp [pairingCount, alGet, cexState, jit0]

/-- C9 witness: the amended score formula and minimality at the concrete
pool. -/
theorem C9_witness :
    ((⟨"b", "sb", "chat"⟩ : WUser), (1 : ℚ)) ∈ scoredPartnersOf cexState "chat" "r" jit0
    ∧ (∃ j, ((⟨"b", "sb", "chat"⟩ : WUser), (1 : ℚ)).2 =
        (if hasPaired cexState "r" ((⟨"b", "sb", "chat"⟩ : WUser), (1 : ℚ)).1.id
          then (pairingCount cexState ((⟨"b", "sb", "chat"⟩ : WUser), (1 : ℚ)).1.id : ℚ)
          else (pairingCount cexState ((⟨"b", "sb", "chat"⟩ : WUser), (1 : ℚ)).1.id : ℚ) - 2)
          + jit0 j)
    ∧ getRandomUserFromWaiting cexState "chat" "r" jit0 = some ⟨"b", "sb", "chat"⟩
    ∧ ∃ q ∈ scoredPartnersOf cexState "chat" "r" jit0, q.1 = ⟨"b", "sb", "chat"⟩
        ∧ ∀ p ∈ scoredPartnersOf cexState "chat" "r" jit0, q.2 ≤ p.2 := by
  have hmem : ((⟨"b", "sb", "chat"⟩ : WUser), (1 : ℚ))
      ∈ scoredPartnersOf cexState "chat" "r" jit0 := by
    simp [scoredPartnersOf, scoreList, waitingSnapshot, valuesOfType, filterNotSelf,
      prevPartners, pairingCount, alGet, cexState, jit0]
  have hsel : getRandomUserFromWaiting cexState "chat" "r" jit0
      = some ⟨"b", "sb", "chat"⟩ := by
    simp [getRandomUserFromWaiting, waitingSnapshot, valuesOfType, filterNotSelf,
      scoredPartnersOf, scoreList, prevPartners, pairingCount, alGet, cexState, jit0,
      selectMinBy, minByAux]
    norm_num
  refine ⟨hmem, ?_, hsel, ?_⟩
  · exact (C9_score_formula_and_min cexState "chat" "r" jit0).1 _ hmem
  · exact (C9_score_formula_and_min cexState "chat" "r" jit0).2 _ hsel

/-- C10 witness: an unregistered socket's message into the fixture session is
logged and relayed with sender `unknown`. -/
theorem C10_witness :
    (alGet chatFixtureNoReg.chatRooms "R" = some ⟨"R", "chat", ["a", "b"], []⟩
      ∧ alGet chatFixtureNoReg.activeUsers "sx" = none)
    ∧ (alGet (sendMessageStep chatFixtureNoReg "sx" "R" "hi").1.chatRooms "R" =
        some { (⟨"R", "chat", ["a", "b"], []⟩ : Room) with
                messages := (⟨"R", "chat", ["a", "b"], []⟩ : Room).messages
                  ++ [⟨"hi", "unknown"⟩] }
      ∧ (sendMessageStep chatFixtureNoReg "sx" "R" "hi").2 =
          (removeAll ((alGet chatFixtureNoReg.roomSockets "R").getD []) "sx").map
            (fun x => (Target.sock x, Event.newMessage ⟨"hi", "unknown"⟩))) :=
  ⟨⟨by decide, by decide⟩,
   C10_unknown_sender chatFixtureNoReg "sx" "R" "hi" ⟨"R", "chat", ["a", "b"], []⟩
     (by decide) (by decide)⟩

end Ran
